import Mathlib

/-!
Verification of the delay-computation core of `src/App.py` (Delay Repay Finder).

The Python source is shallowly embedded: each relevant Python function is
translated into a Lean definition operating on `String` / `List Char`,
`Int` for pandas integer columns, and `Option` for nullable values
(`None` / `NaN`).  Machine-level concerns do not arise (Python integers are
unbounded); regular expressions used by the source are translated into
explicit character scans whose semantics match the regexes on the relevant
patterns (the regexes involved have no back-tracking ambiguity: each `\s+`
is followed by a non-whitespace literal or digit class, so greedy matching
coincides with "maximal whitespace run then literal").

Strings are treated at the level of ASCII characters, matching the data the
scraper actually handles (Python `\d` and `.lower()` Unicode subtleties are
outside the modelled input space).
-/

/-- Python whitespace class `\s` (ASCII part), also used by `str.strip()`. -/
def isPySpace (c : Char) : Bool :=
  c == ' ' || c == '\t' || c == '\n' || c == '\r' || c.toNat == 11 || c.toNat == 12

/-- Test whether `needle` is a prefix of `hay` (character lists). -/
def isPrefixCh : List Char → List Char → Bool
  | [], _ => true
  | _ :: _, [] => false
  | a :: as, b :: bs => a == b && isPrefixCh as bs

/-- Test whether `needle` occurs as a contiguous substring of `hay`; Python substring membership. -/
def containsSubCh (needle : List Char) : List Char → Bool
  | [] => needle.isEmpty
  | c :: rest => isPrefixCh needle (c :: rest) || containsSubCh needle rest

/-- Python `x in y` on strings (substring test). -/
def pyIn (x y : String) : Bool := containsSubCh x.toList y.toList

/-- Python `str.strip()`: drop whitespace from both ends. -/
def stripCh (l : List Char) : List Char :=
  ((l.dropWhile isPySpace).reverse.dropWhile isPySpace).reverse

/-- Python `str.strip()` on `String`. -/
def pyStrip (s : String) : String := String.mk (stripCh s.toList)

/-- Numeric value of an ASCII digit character, as used by Python `int` on a
digit string. -/
def digitVal (c : Char) : Int := (c.toNat : Int) - 48

/--
Embedding of `clean_time` (src/App.py lines 48-53):

    def clean_time(t_str):
        try:
            if not t_str: return None
            if not re.fullmatch(r"\d{4}", t_str): return None
            return int(t_str[:2]) * 60 + int(t_str[2:])
        except: return None

A `None` argument is `none`; `not t_str` is true for `None` and for the
empty string.  The full match of the pattern `\d{4}` holds exactly when `t` consists
of four digit characters, and then `int(t[:2])` and `int(t[2:])` are the
two-digit numeric values of the halves.
-/
def clean_time : Option String → Option Int
  | none => none
  | some t =>
    if t = "" then none
    else
      match t.toList with
      | [a, b, c, d] =>
        if a.isDigit && b.isDigit && c.isDigit && d.isDigit then
          some ((digitVal a * 10 + digitVal b) * 60 + (digitVal c * 10 + digitVal d))
        else none
      | _ => none

/-- Embedding of the anchored match of pattern `^(\d{4})` on line 104: the
first four characters, when they are all digits. -/
def extractSched (t : String) : Option String :=
  match t.toList with
  | a :: b :: c :: d :: _ =>
    if a.isDigit && b.isDigit && c.isDigit && d.isDigit then
      some (String.mk [a, b, c, d])
    else none
  | _ => none

/-- Test whether one of the status keywords of the split pattern
`\s+(Arrived|On time|Expected|Cancel)` starts at this position. -/
def keywordAt (l : List Char) : Bool :=
  isPrefixCh "Arrived".toList l || isPrefixCh "On time".toList l ||
  isPrefixCh "Expected".toList l || isPrefixCh "Cancel".toList l

/--
The text before the first match of `\s+(Arrived|On time|Expected|Cancel)`,
i.e. element `[0]` of the `re.split` on line 109.  A match starts at a
whitespace character such that, after the maximal whitespace run from it, one
of the keywords follows (the keywords start with non-whitespace characters,
so the greedy `\s+` cannot shift the keyword position).
-/
def splitHead : List Char → List Char
  | [] => []
  | c :: rest =>
    if isPySpace c && keywordAt ((c :: rest).dropWhile isPySpace) then []
    else c :: splitHead rest

/-- The origin field computed on lines 108-109: the part of the stripped
`text[4:]` before the first match of `\s+(Arrived|On time|Expected|Cancel)`,
stripped. -/
def parsed_origin (text : String) : String :=
  String.mk (stripCh (splitHead (stripCh (text.toList.drop 4))))

/-- Embedding of the search pattern `Arrived at\s+(\d{4})` anchored at the
current position: the literal `"Arrived at"`, at least one whitespace
character, then four digits (captured). -/
def arrivedMatchAt (l : List Char) : Option (List Char) :=
  if isPrefixCh "Arrived at".toList l then
    let rest := l.drop 10
    match rest.dropWhile isPySpace with
    | a :: b :: c :: d :: _ =>
      if (rest.takeWhile isPySpace).isEmpty then none
      else if a.isDigit && b.isDigit && c.isDigit && d.isDigit then some [a, b, c, d]
      else none
    | _ => none
  else none

/-- Embedding of the regex search on line 121: leftmost match of the pattern
`Arrived at\s+(\d{4})`, returning the captured four digits. -/
def searchArrived : List Char → Option (List Char)
  | [] => none
  | c :: rest =>
    match arrivedMatchAt (c :: rest) with
    | some r => some r
    | none => searchArrived rest

/--
Embedding of `parse_row_text` (src/App.py lines 103-128).  The Python
function returns a 4-tuple `(origin, sched_str, act_str, status)`, or
`(None, None, None, None)` when the text does not start with four digits;
the all-`None` sentinel is modelled as `none`.
-/
def parse_row_text (text : String) : Option (String × String × Option String × String) :=
  match extractSched text with
  | none => none
  | some sched_str =>
    let origin := parsed_origin text
    if pyIn "Cancel" text then some (origin, sched_str, none, "CANCELLED")
    else if pyIn "On time" text then some (origin, sched_str, some sched_str, "ON TIME")
    else
      match searchArrived text.toList with
      | some ds => some (origin, sched_str, some (String.mk ds), "LATE/EARLY")
      | none => some (origin, sched_str, none, "NO REPORT")

/--
One raw scraped row, as assembled on src/App.py lines 217-222.  `dt_obj` is
an abstract date identifier (dates are only compared for equality and used as
grouping keys).  `sched_mins` is total: every row appended to the raw data
has `sched_str` a four-digit string (guaranteed by `parse_row_text` and the
`if sched:` guard on line 214), so `clean_time(sched)` never returns `None`
and the notna guard on sched_mins on line 169 is always true.
`act_mins` is nullable (`NaN` when `act_str` is `None`).
-/
structure RawRecord where
  dt_obj : Nat
  direction : String
  origin : String
  dest_code : String
  sched_str : String
  act_str : Option String
  sched_mins : Int
  act_mins : Option Int
  status_raw : String
  url : String
deriving DecidableEq

/-- One output row of `process_delays` (src/App.py lines 179-185). -/
structure DelayRecord where
  dt_obj : Nat
  From : String
  To : String
  schedDep : String
  schedArr : String
  actualArr : String
  Delay_Mins : Int
  Status : String
  url : String
  lookup_station : String
deriving DecidableEq

/-- The midnight-wraparound correction applied on lines 162 and 171:
`if diff < -1000: diff += 1440`. -/
def wrapDiff (diff : Int) : Int := if diff < -1000 then diff + 1440 else diff

/-- The scan on lines 153-158: the first record after the current one whose
`status_raw` is not `"CANCELLED"` (the loop breaks at the first such
candidate). -/
def findNextNonCancelled : List RawRecord → Option RawRecord
  | [] => none
  | c :: rest =>
    if c.status_raw = "CANCELLED" then findNextNonCancelled rest else some c

/-- Python `f"...{x}..."` interpolation of a nullable string: `None` prints
as `"None"`. -/
def pyOptStr : Option String → String
  | none => "None"
  | some s => s

/-- Python truthiness-based display on line 182:
the act_str field when truthy, else the placeholder (both `None` and `""`
are falsy). -/
def actualArrText : Option String → String
  | none => "---"
  | some s => if s = "" then "---" else s

/--
The body of the loop of `process_delays` (src/App.py lines 139-185) for one
`row`, where `rest` is the list of records strictly after it in the sorted
group (the Python inner loop iterates over indices `i+1 ..`).

Branches, mirroring the source:
* lines 143-150: from/to/lookup stations by direction, with the
  substring test of `"CHX"` against the dest_code field;
* lines 152-167: `CANCELLED` rows attribute their delay to the first
  subsequent non-cancelled record, provided its `act_mins` is non-null and
  positive, else the 999 sentinel;
* lines 169-177: rows with known actual (and scheduled) time get the
  wraparound-corrected difference, clamped to 0 with note "On Time" when
  non-positive, else note "<N>m Late";
* otherwise `delay = 0` and the note keeps the raw status (lines 140-141).
-/
def computeRecord (row : RawRecord) (rest : List RawRecord) : DelayRecord :=
  let fromTo : String × String × String :=
    if row.direction = "To London" then
      ("Sevenoaks",
       if pyIn "CHX" row.dest_code then "London Charing Cross" else "London Cannon Street",
       "Sevenoaks")
    else (row.origin, "Sevenoaks", row.origin)
  let dn : Int × String :=
    if row.status_raw = "CANCELLED" then
      match findNextNonCancelled rest with
      | some nt =>
        match nt.act_mins with
        | some a =>
          if 0 < a then
            (wrapDiff (a - row.sched_mins),
             "Cancelled (Next Arr: " ++ pyOptStr nt.act_str ++ ")")
          else (999, "Cancelled (No replacement)")
        | none => (999, "Cancelled (No replacement)")
      | none => (999, "Cancelled (No replacement)")
    else
      match row.act_mins with
      | some a =>
        let diff := wrapDiff (a - row.sched_mins)
        if diff ≤ 0 then (0, "On Time") else (diff, toString diff ++ "m Late")
      | none => (0, row.status_raw)
  { dt_obj := row.dt_obj, From := fromTo.1, To := fromTo.2.1, schedDep := "?",
    schedArr := row.sched_str, actualArr := actualArrText row.act_str,
    Delay_Mins := dn.1, Status := dn.2, url := row.url,
    lookup_station := fromTo.2.2 }

/-- The full loop of `process_delays` over the sorted group: record `i` is
processed with the records after it as its forward-scan context. -/
def processLoop : List RawRecord → List DelayRecord
  | [] => []
  | r :: rest => computeRecord r rest :: processLoop rest

/-- Comparison used by the sort on the sched_mins column, line 136 (ascending). -/
instance : DecidableRel (fun a b : RawRecord => a.sched_mins ≤ b.sched_mins) :=
  fun a b => Int.decLe a.sched_mins b.sched_mins

/--
Embedding of `process_delays` (src/App.py lines 134-187).  Line 136 sorts
the group by `sched_mins` with the pandas default sort kind (quicksort),
which pandas does not document as stable; the embedding uses an insertion
sort, which agrees with the source on the sorted key order but fixes one
particular (stable) order on ties that the source leaves
implementation-defined.  The claims proved below are stated on
`processLoop`, i.e. on the group in whatever sorted order line 136 yields,
and therefore do not depend on this choice.
-/
def process_delays (trains_df : List RawRecord) : List DelayRecord :=
  processLoop (List.insertionSort (fun a b => a.sched_mins ≤ b.sched_mins) trains_df)

/--
Python `str.replace(needle, "")` scanning left to right over non-overlapping
occurrences; `fuel` bounds the recursion (a step always consumes at least
one character, so `fuel = s.length` at the top level is sufficient).
The source only ever replaces by the empty string, so only removal is
modelled.
-/
def pyRemoveGo (needle : List Char) : Nat → List Char → List Char
  | 0, s => s
  | _ + 1, [] => []
  | fuel + 1, c :: rest =>
    if !needle.isEmpty && isPrefixCh needle (c :: rest) then
      pyRemoveGo needle fuel ((c :: rest).drop needle.length)
    else c :: pyRemoveGo needle fuel rest

/-- Python `s.replace(needle, "")`. -/
def pyRemove (needle s : List Char) : List Char := pyRemoveGo needle s.length s

/--
Embedding of `normalize_station_name` (src/App.py lines 61-63):

    return name.lower().replace("london", "").replace(" ", "").replace("international", "").strip()

applied in this order: lowercase, remove `"london"`, remove spaces, remove
`"international"`, strip.
-/
def normalize_station_name (name : String) : String :=
  String.mk (stripCh
    (pyRemove "international".toList
      (pyRemove " ".toList
        (pyRemove "london".toList (name.toList.map Char.toLower)))))

/--
The station-match test of `fetch_detailed_departure` (src/App.py line 88):
`if target_clean in row_name or row_name in target_clean`, where both sides
are normalized names.
-/
def station_names_match (target row : String) : Bool :=
  pyIn (normalize_station_name target) (normalize_station_name row) ||
  pyIn (normalize_station_name row) (normalize_station_name target)

/-- The deduplication key of line 232: the subset columns dt_obj, From, To
and Sched Arr. -/
def dedupKey (r : DelayRecord) : Nat × String × String × String :=
  (r.dt_obj, r.From, r.To, r.schedArr)

/-- Embedding of the pandas drop_duplicates with keep-first semantics (the
pandas default), with the set of already-seen keys made explicit. -/
def drop_duplicates_go (seen : List (Nat × String × String × String)) :
    List DelayRecord → List DelayRecord
  | [] => []
  | r :: rest =>
    if dedupKey r ∈ seen then drop_duplicates_go seen rest
    else r :: drop_duplicates_go (dedupKey r :: seen) rest

/-- Embedding of the deduplication on src/App.py line 232. -/
def drop_duplicates (l : List DelayRecord) : List DelayRecord := drop_duplicates_go [] l

/-- Embedding of the filter on line 298: rows with delay at least 15 minutes. -/
def delayed_filter (df : List DelayRecord) : List DelayRecord :=
  df.filter (fun r => decide (15 ≤ r.Delay_Mins))

/-- Embedding of the restriction on line 301: rows of the given date. -/
def day_subset (delayed : List DelayRecord) (d : Nat) : List DelayRecord :=
  delayed.filter (fun r => r.dt_obj == d)

/-- Comparison used by the descending sorts on the Delay_Mins column
(lines 302 and 326). -/
instance : DecidableRel (fun a b : DelayRecord => b.Delay_Mins ≤ a.Delay_Mins) :=
  fun a b => Int.decLe b.Delay_Mins a.Delay_Mins

instance : IsTotal DelayRecord (fun a b => b.Delay_Mins ≤ a.Delay_Mins) :=
  ⟨fun a b => (le_total b.Delay_Mins a.Delay_Mins).symm.symm⟩

instance : IsTrans DelayRecord (fun a b => b.Delay_Mins ≤ a.Delay_Mins) :=
  ⟨fun _ _ _ h h2 => le_trans h2 h⟩

/-- Descending sort by `Delay_Mins`; models the descending sort of lines 302
and 326 (up to tie order, which the pandas default quicksort leaves
implementation-defined and no claim depends on). -/
def sort_desc (l : List DelayRecord) : List DelayRecord :=
  List.insertionSort (fun a b => b.Delay_Mins ≤ a.Delay_Mins) l

/-- The per-date top-delay selection of src/App.py lines 298-302:
filter to `Delay_Mins >= 15`, restrict to the date, sort descending by
delay, `head(5)`. -/
def top_delays_for_date (df : List DelayRecord) (d : Nat) : List DelayRecord :=
  (sort_desc (day_subset (delayed_filter df) d)).take 5

/-- One row of the final display table (src/App.py lines 320-334): either a
real delay record of the date, or the single "No delays >15mn" placeholder
row. -/
inductive DisplayRow where
  | realRow (date : Nat) (r : DelayRecord)
  | noDelays (date : Nat)
deriving DecidableEq

/--
The display assembly of src/App.py lines 320-334: dates are traversed in the
caller-supplied request order; each date contributes its selected records
sorted descending by delay, or exactly one placeholder row when it has no
qualifying record.  (In the source the per-date records are looked up again
in `df` by index and re-sorted descending on line 326; the set of records
per date is the one selected by `top_delays_for_date`.)
-/
def display_rows (dates : List Nat) (df : List DelayRecord) : List DisplayRow :=
  dates.flatMap fun d =>
    let day := top_delays_for_date df d
    if day.isEmpty then [DisplayRow.noDelays d] else day.map (DisplayRow.realRow d)

/--
Modelled from the wording of the spec, for comparison with the scan in the code (claim
C1): the first subsequent record whose category is not Cancelled AND whose
actual time is known and positive.  The function `findNextNonCancelled`
instead stops at the first non-cancelled record regardless of its actual
time.
-/
def spec_scan_successor (rest : List RawRecord) : Option RawRecord :=
  rest.find? fun c =>
    !(c.status_raw == "CANCELLED") &&
      (match c.act_mins with
       | some a => decide (0 < a)
       | none => false)

/-- Sample raw record: a cancelled 0730 arrival. -/
def rCanc : RawRecord :=
  { dt_obj := 1, direction := "To London", origin := "Sevenoaks", dest_code := "CHX",
    sched_str := "0730", act_str := none, sched_mins := 450, act_mins := none,
    status_raw := "CANCELLED", url := "/a" }

/-- Sample raw record: a 0800 arrival with no report (no actual time). -/
def rNoRep : RawRecord :=
  { dt_obj := 1, direction := "To London", origin := "Sevenoaks", dest_code := "CHX",
    sched_str := "0800", act_str := none, sched_mins := 480, act_mins := none,
    status_raw := "NO REPORT", url := "/b" }

/-- Sample raw record: a 0810 arrival that actually arrived 0830. -/
def rLate : RawRecord :=
  { dt_obj := 1, direction := "To London", origin := "Sevenoaks", dest_code := "CHX",
    sched_str := "0810", act_str := some "0830", sched_mins := 490, act_mins := some 510,
    status_raw := "LATE/EARLY", url := "/c" }

/-- Sample raw record: a cancelled 0800 arrival. -/
def cCanc : RawRecord :=
  { dt_obj := 1, direction := "To London", origin := "Sevenoaks", dest_code := "CHX",
    sched_str := "0800", act_str := none, sched_mins := 480, act_mins := none,
    status_raw := "CANCELLED", url := "/d" }

/-- Sample raw record: a 0805 arrival that actually arrived early, at 0755. -/
def cEarly : RawRecord :=
  { dt_obj := 1, direction := "To London", origin := "Sevenoaks", dest_code := "CHX",
    sched_str := "0805", act_str := some "0755", sched_mins := 485, act_mins := some 475,
    status_raw := "LATE/EARLY", url := "/e" }

/-- Sample raw record: scheduled 2350, arrived 0005 past midnight. -/
def wLate : RawRecord :=
  { dt_obj := 1, direction := "To Home", origin := "London Charing Cross", dest_code := "SEV",
    sched_str := "2350", act_str := some "0005", sched_mins := 1430, act_mins := some 5,
    status_raw := "LATE/EARLY", url := "/f" }

/-- Helper to build sample delay records. -/
def mkD (dt : Nat) (f t sa : String) (delay : Int) (st : String) : DelayRecord :=
  { dt_obj := dt, From := f, To := t, schedDep := "?", schedArr := sa,
    actualArr := "---", Delay_Mins := delay, Status := st, url := "", lookup_station := f }

/-- Sample delay records and table for the aggregator. -/
def dA : DelayRecord := mkD 1 "Sevenoaks" "London Charing Cross" "0730" 20 "20m Late"

def dB : DelayRecord := mkD 1 "Sevenoaks" "London Cannon Street" "0745" 16 "16m Late"

def dC : DelayRecord := mkD 1 "Sevenoaks" "London Charing Cross" "0800" 5 "5m Late"

def dD : DelayRecord := mkD 2 "Tonbridge" "Sevenoaks" "1810" 30 "30m Late"

def dfW : List DelayRecord := [dC, dA, dB, dD]

/-- Sample delay record sharing its deduplication key with `dA` but
differing elsewhere. -/
def dAdup : DelayRecord :=
  mkD 1 "Sevenoaks" "London Charing Cross" "0730" 999 "Cancelled (No replacement)"

example : normalize_station_name "London Charing Cross" = "charingcross" := by decide
example : normalize_station_name "Charing Cross International" = "charingcross" := by decide
example : clean_time (some "0730") = some 450 := by decide
example : clean_time (some "123") = none := by decide
example : clean_time (some "9999") = some 6039 := by decide
example : parse_row_text "0730 Tonbridge On time" =
    some ("Tonbridge", "0730", some "0730", "ON TIME") := by decide
example : parse_row_text "0730 Tonbridge Arrived at 0745" =
    some ("Tonbridge", "0730", some "0745", "LATE/EARLY") := by decide
example : parse_row_text "0730 Tonbridge Cancelled" =
    some ("Tonbridge", "0730", none, "CANCELLED") := by decide
example : parse_row_text "Hello" = none := by decide

/-!
## Theorems

One theorem per claim of the specification, with concrete witnesses for
theorems carrying hypotheses, and counterexamples where the code deviates
from the claim.
-/

/--
Claim C6: for every input string consisting of exactly 4 digits,
`clean_time` returns (first two digits as hours) * 60 + (last two digits as
minutes), with no validation that hours < 24 or minutes < 60; for every
other input (including null/empty or wrong-length strings) it returns null
rather than raising an error.
-/
theorem clean_time_spec :
    (∀ a b c d : Char, a.isDigit = true → b.isDigit = true → c.isDigit = true →
        d.isDigit = true →
        clean_time (some (String.mk [a, b, c, d])) =
          some ((digitVal a * 10 + digitVal b) * 60 + (digitVal c * 10 + digitVal d))) ∧
    (∀ t : String, ¬ (t.toList.length = 4 ∧ ∀ ch ∈ t.toList, ch.isDigit = true) →
        clean_time (some t) = none) ∧
    clean_time none = none := by
  refine ⟨fun a b c d h1 h2 h3 h4 => ?_, fun t ht => ?_, rfl⟩
  · have hne : String.mk [a, b, c, d] ≠ "" := by
      simp [String.ext_iff]
    simp [clean_time, hne, String.toList, h1, h2, h3, h4]
  · by_cases he : t = ""
    · simp [clean_time, he]
    · simp only [String.toList] at ht
      rcases hml : t.data with _ | ⟨a, _ | ⟨b, _ | ⟨c, _ | ⟨d, _ | ⟨e, l5⟩⟩⟩⟩⟩ <;>
        simp [clean_time, he, hml]
      rw [hml] at ht
      simp at ht
      tauto

/-- Witness for C6 at concrete inputs, including the absence of range
validation ("9999" parses to 6039 minutes). -/
theorem clean_time_spec_witness :
    clean_time (some "0730") = some 450 ∧ clean_time (some "123") = none ∧
    clean_time (some "12a4") = none ∧ clean_time (some "") = none ∧
    clean_time none = none ∧ clean_time (some "9999") = some 6039 := by
  have h1 := clean_time_spec.1 '0' '7' '3' '0' rfl rfl rfl rfl
  have h2 := clean_time_spec.2.1 "123" (by decide)
  have h3 := clean_time_spec.2.1 "12a4" (by decide)
  have h4 := clean_time_spec.2.1 "" (by decide)
  have h6 := clean_time_spec.1 '9' '9' '9' '9' rfl rfl rfl rfl
  refine ⟨?_, h2, h3, h4, clean_time_spec.2.2, ?_⟩
  · rw [show ("0730" : String) = String.mk ['0', '7', '3', '0'] from rfl, h1]; decide
  · rw [show ("9999" : String) = String.mk ['9', '9', '9', '9'] from rfl, h6]; decide

/--
Claim C5: for every input line beginning with 4 digits, the status parser
determines the category in priority order — "Cancel" in the text gives
CANCELLED with no actual time; else "On time" gives ON TIME with actual
time equal to the scheduled time; else an "Arrived at HHMM" pattern gives
LATE/EARLY with that HHMM as actual time; otherwise NO REPORT with no
actual time.  If the text does not begin with 4 digits, the "not a record"
sentinel (`none`) is produced.
-/
theorem parse_row_priority (t : String) :
    (extractSched t = none → parse_row_text t = none) ∧
    ∀ sched, extractSched t = some sched →
      (pyIn "Cancel" t = true →
        parse_row_text t = some (parsed_origin t, sched, none, "CANCELLED")) ∧
      (pyIn "Cancel" t = false → pyIn "On time" t = true →
        parse_row_text t = some (parsed_origin t, sched, some sched, "ON TIME")) ∧
      (pyIn "Cancel" t = false → pyIn "On time" t = false →
        (∀ ds, searchArrived t.toList = some ds →
          parse_row_text t = some (parsed_origin t, sched, some (String.mk ds), "LATE/EARLY")) ∧
        (searchArrived t.toList = none →
          parse_row_text t = some (parsed_origin t, sched, none, "NO REPORT"))) := by
  refine ⟨fun h => by simp [parse_row_text, h], fun sched hs => ⟨?_, ?_, ?_⟩⟩
  · intro hc; simp [parse_row_text, hs, hc]
  · intro hc ho; simp [parse_row_text, hs, hc, ho]
  · intro hc ho
    constructor
    · intro ds hds
      simp only [String.toList] at hds
      simp [parse_row_text, hs, hc, ho, hds]
    · intro hds
      simp only [String.toList] at hds
      simp [parse_row_text, hs, hc, ho, hds]

/-- Witness for C5: the four branches and the sentinel on concrete rows. -/
theorem parse_row_priority_witness :
    parse_row_text "0730 Tonbridge Arrived at 0745" =
      some ("Tonbridge", "0730", some "0745", "LATE/EARLY") ∧
    parse_row_text "0730 Tonbridge On time" =
      some ("Tonbridge", "0730", some "0730", "ON TIME") ∧
    parse_row_text "0730 Tonbridge Cancelled" =
      some ("Tonbridge", "0730", none, "CANCELLED") ∧
    parse_row_text "0730 Tonbridge Expected 0750" =
      some ("Tonbridge", "0730", none, "NO REPORT") ∧
    parse_row_text "Hello world" = none := by
  have h1 := (((parse_row_priority "0730 Tonbridge Arrived at 0745").2 "0730"
    (by decide)).2.2 (by decide) (by decide)).1 ['0', '7', '4', '5'] (by decide)
  have h2 := ((parse_row_priority "0730 Tonbridge On time").2 "0730"
    (by decide)).2.1 (by decide) (by decide)
  have h3 := ((parse_row_priority "0730 Tonbridge Cancelled").2 "0730"
    (by decide)).1 (by decide)
  have h4 := (((parse_row_priority "0730 Tonbridge Expected 0750").2 "0730"
    (by decide)).2.2 (by decide) (by decide)).2 (by decide)
  have h5 := (parse_row_priority "Hello world").1 (by decide)
  exact ⟨by rw [h1]; decide, by rw [h2]; decide, by rw [h3]; decide,
         by rw [h4]; decide, h5⟩

/--
Claim C10 (implicit): the status parser tests its keyword substrings
against the entire row text, so any input beginning with 4 digits whose
text contains "Cancel" anywhere — including inside the origin-station
name — is categorised CANCELLED with null actual time, even when the text
also contains "On time" or an "Arrived at HHMM" pattern.
-/
theorem cancel_overrides_other_statuses (t : String) (sched : String)
    (hs : extractSched t = some sched) (hc : pyIn "Cancel" t = true) :
    parse_row_text t = some (parsed_origin t, sched, none, "CANCELLED") := by
  simp [parse_row_text, hs, hc]

/-- Witness for C10: "Cancel" occurring only inside the origin-station name
wins over a present "On time" status and over an "Arrived at" pattern. -/
theorem cancel_overrides_other_statuses_witness :
    pyIn "On time" "0730 Cancelton Junction On time" = true ∧
    parse_row_text "0730 Cancelton Junction On time" =
      some ("Cancelton Junction", "0730", none, "CANCELLED") ∧
    searchArrived "0730 Cancelton East Arrived at 0745".toList = some ['0', '7', '4', '5'] ∧
    parse_row_text "0730 Cancelton East Arrived at 0745" =
      some ("Cancelton East", "0730", none, "CANCELLED") := by
  have h1 := cancel_overrides_other_statuses "0730 Cancelton Junction On time" "0730"
    (by decide) (by decide)
  have h2 := cancel_overrides_other_statuses "0730 Cancelton East Arrived at 0745" "0730"
    (by decide) (by decide)
  exact ⟨by decide, by rw [h1]; decide, by decide, by rw [h2]; decide⟩

/--
Claim C9: `normalize_station_name` lowercases, removes "london",
"international" and all spaces, and trims, so that "London Charing Cross"
and "Charing Cross International" both normalize to "charingcross"; and two
station names match exactly when one normalized form is a substring of the
other, in either direction.
-/
theorem normalize_and_match_spec :
    normalize_station_name "London Charing Cross" = "charingcross" ∧
    normalize_station_name "Charing Cross International" = "charingcross" ∧
    ∀ target row : String,
      station_names_match target row = true ↔
        (containsSubCh (normalize_station_name target).toList
            (normalize_station_name row).toList = true ∨
         containsSubCh (normalize_station_name row).toList
            (normalize_station_name target).toList = true) := by
  refine ⟨by decide, by decide, fun target row => ?_⟩
  simp [station_names_match, pyIn]

/-- Helper: the non-cancelled branch of `computeRecord` (lines 169-177). -/
lemma computeRecord_noncancelled_cases (row : RawRecord) (rest : List RawRecord) (a : Int)
    (hc : row.status_raw ≠ "CANCELLED") (ha : row.act_mins = some a) :
    (wrapDiff (a - row.sched_mins) ≤ 0 →
      (computeRecord row rest).Delay_Mins = 0 ∧
      (computeRecord row rest).Status = "On Time") ∧
    (0 < wrapDiff (a - row.sched_mins) →
      (computeRecord row rest).Delay_Mins = wrapDiff (a - row.sched_mins) ∧
      (computeRecord row rest).Status =
        toString (wrapDiff (a - row.sched_mins)) ++ "m Late") := by
  constructor
  · intro hle
    constructor <;> simp [computeRecord, hc, ha, hle]
  · intro hpos
    have hle : ¬ wrapDiff (a - row.sched_mins) ≤ 0 := not_le.mpr hpos
    constructor <;> simp [computeRecord, hc, ha, hle]

/--
Claim C4: for every non-cancelled record with both scheduled and actual
time known, the computed delay equals actual minus scheduled minutes,
corrected by adding 1440 when the raw difference is below -1000; if the
corrected result is ≤ 0 the delay is 0 with note "On Time", otherwise the
delay is the corrected result with note "<N>m Late".
-/
theorem noncancelled_delay_rule (row : RawRecord) (rest : List RawRecord) (a : Int)
    (hc : row.status_raw ≠ "CANCELLED") (ha : row.act_mins = some a) :
    (wrapDiff (a - row.sched_mins) ≤ 0 →
      (computeRecord row rest).Delay_Mins = 0 ∧
      (computeRecord row rest).Status = "On Time") ∧
    (0 < wrapDiff (a - row.sched_mins) →
      (computeRecord row rest).Delay_Mins = wrapDiff (a - row.sched_mins) ∧
      (computeRecord row rest).Status =
        toString (wrapDiff (a - row.sched_mins)) ++ "m Late") :=
  computeRecord_noncancelled_cases row rest a hc ha

/-- Witness for C4: the wraparound example of the spec — scheduled 2350
(1430 minutes), actual 0005 (5 minutes), raw difference -1425 < -1000,
corrected to 15, so delay 15 and note "15m Late"; plus an early arrival
clamping to 0 with note "On Time". -/
theorem noncancelled_delay_rule_witness :
    (computeRecord wLate []).Delay_Mins = 15 ∧
    (computeRecord wLate []).Status = "15m Late" ∧
    (computeRecord cEarly []).Delay_Mins = 0 ∧
    (computeRecord cEarly []).Status = "On Time" := by
  have h1 := (noncancelled_delay_rule wLate [] 5 (by decide) (by decide)).2 (by decide)
  have h2 := (noncancelled_delay_rule cEarly [] 475 (by decide) (by decide)).1 (by decide)
  refine ⟨?_, ?_, h2.1, h2.2⟩
  · rw [h1.1]; decide
  · rw [h1.2]; decide

/--
Counterexample to claim C1 as stated.  The claim says the cancelled record
scans forward for the first subsequent record whose category is not
Cancelled AND whose actual time is known and positive, and that the 999
sentinel is assigned only when no such successor exists anywhere later in
the group.  In the group [cancelled 0730, no-report 0800, late 0810
arrived 0830], such a successor exists (the 0810 record, actual 510
minutes; the claim would assign delay 510 - 450 = 60), yet the code stops
its scan at the first non-cancelled record (the no-report row, which has no
actual time) and assigns the sentinel 999 with note
"Cancelled (No replacement)".
-/
theorem cancelled_attribution_counterexample :
    rCanc.status_raw = "CANCELLED" ∧
    spec_scan_successor [rNoRep, rLate] = some rLate ∧
    rLate.act_mins = some 510 ∧
    wrapDiff (510 - rCanc.sched_mins) = 60 ∧
    (processLoop [rCanc, rNoRep, rLate]).map (fun r => r.Delay_Mins) = [999, 0, 20] ∧
    (processLoop [rCanc, rNoRep, rLate]).map (fun r => r.Status) =
      ["Cancelled (No replacement)", "NO REPORT", "20m Late"] ∧
    (999 : Int) ≠ 60 := by
  decide

/-- Helper: the cancelled branch of `computeRecord` (lines 152-167). -/
lemma computeRecord_cancelled_cases (row : RawRecord)
    (rest : List RawRecord) (h : row.status_raw = "CANCELLED") :
    (∃ nt a, findNextNonCancelled rest = some nt ∧ nt.act_mins = some a ∧ 0 < a ∧
        (computeRecord row rest).Delay_Mins = wrapDiff (a - row.sched_mins) ∧
        (computeRecord row rest).Status =
          "Cancelled (Next Arr: " ++ pyOptStr nt.act_str ++ ")") ∨
    ((computeRecord row rest).Delay_Mins = 999 ∧
     (computeRecord row rest).Status = "Cancelled (No replacement)" ∧
     ∀ nt, findNextNonCancelled rest = some nt →
       ∀ a, nt.act_mins = some a → ¬ 0 < a) := by
  cases hnt : findNextNonCancelled rest with
  | none =>
    right
    refine ⟨?_, ?_, ?_⟩
    · simp [computeRecord, h, hnt]
    · simp [computeRecord, h, hnt]
    · intro nt he; exact Option.noConfusion he
  | some nt =>
    cases hact : nt.act_mins with
    | none =>
      right
      refine ⟨?_, ?_, ?_⟩
      · simp [computeRecord, h, hnt, hact]
      · simp [computeRecord, h, hnt, hact]
      · intro nt2 he a ha
        cases he
        rw [hact] at ha
        exact Option.noConfusion ha
    | some a =>
      by_cases hpos : 0 < a
      · left
        exact ⟨nt, a, rfl, hact, hpos,
          by simp [computeRecord, h, hnt, hact, hpos],
          by simp [computeRecord, h, hnt, hact, hpos]⟩
      · right
        refine ⟨?_, ?_, ?_⟩
        · simp [computeRecord, h, hnt, hact, hpos]
        · simp [computeRecord, h, hnt, hact, hpos]
        · intro nt2 he a2 ha2
          cases he
          rw [hact] at ha2
          cases ha2
          exact hpos

/--
Claim C1 as amended (what the code does): the attribution of a cancelled record
examines only the FIRST subsequent non-cancelled record of the sorted
group.  If the actual time of that record is known and positive, the delay is
its actual time minus the scheduled time of the cancelled record (+1440 when the
raw difference is below -1000) and the note embeds its
actual-time text; otherwise — including when that first non-cancelled
successor lacks a known positive actual time even though a later record
has one — the delay is the sentinel 999 with note
"Cancelled (No replacement)".
-/
theorem cancelled_attribution_first_noncancelled (row : RawRecord)
    (rest : List RawRecord) (h : row.status_raw = "CANCELLED") :
    (∃ nt a, findNextNonCancelled rest = some nt ∧ nt.act_mins = some a ∧ 0 < a ∧
        (computeRecord row rest).Delay_Mins = wrapDiff (a - row.sched_mins) ∧
        (computeRecord row rest).Status =
          "Cancelled (Next Arr: " ++ pyOptStr nt.act_str ++ ")") ∨
    ((computeRecord row rest).Delay_Mins = 999 ∧
     (computeRecord row rest).Status = "Cancelled (No replacement)" ∧
     ∀ nt, findNextNonCancelled rest = some nt →
       ∀ a, nt.act_mins = some a → ¬ 0 < a) :=
  computeRecord_cancelled_cases row rest h

/-- Witness for the amended C1, in both directions: attribution to the
first non-cancelled successor when its actual time is known and positive,
and the sentinel when the first non-cancelled successor has no actual
time. -/
theorem cancelled_attribution_first_noncancelled_witness :
    (computeRecord rCanc [rLate]).Delay_Mins = 60 ∧
    (computeRecord rCanc [rLate]).Status = "Cancelled (Next Arr: 0830)" ∧
    (computeRecord rCanc [rNoRep, rLate]).Delay_Mins = 999 ∧
    (computeRecord rCanc [rNoRep, rLate]).Status = "Cancelled (No replacement)" := by
  rcases cancelled_attribution_first_noncancelled rCanc [rLate] (by decide) with
    ⟨nt, a, hnt, hact, _, hd, hs⟩ | ⟨_, _, hnone⟩
  · have hnt2 : nt = rLate := by
      have h2 : findNextNonCancelled [rLate] = some rLate := by decide
      rw [h2] at hnt
      exact (Option.some.inj hnt).symm
    subst hnt2
    have ha2 : a = 510 := by
      rw [show rLate.act_mins = some 510 from rfl] at hact
      exact (Option.some.inj hact).symm
    subst ha2
    rcases cancelled_attribution_first_noncancelled rCanc [rNoRep, rLate] (by decide) with
      ⟨nt2, a2, hnt2, hact2, hpos2, _, _⟩ | ⟨hd2, hs2, _⟩
    · exfalso
      have h3 : findNextNonCancelled [rNoRep, rLate] = some rNoRep := by decide
      rw [h3] at hnt2
      cases hnt2
      rw [show rNoRep.act_mins = none from rfl] at hact2
      cases hact2
    · exact ⟨by rw [hd]; decide, by rw [hs]; decide, hd2, hs2⟩
  · exfalso
    exact hnone rLate (by decide) 510 (by decide) (by decide)

/--
Counterexample to claim C2 as stated.  The claim says every produced delay
is ≥ 0, with negative differences clamped in every branch including the
cancelled-record attribution branch.  But the attribution branch does not
clamp: for a cancelled 0800 record whose first non-cancelled successor
(scheduled 0805) actually arrived early at 0755, the code computes
475 - 480 = -5 and stores delay -5.
-/
theorem delay_nonneg_counterexample :
    cCanc.status_raw = "CANCELLED" ∧
    (processLoop [cCanc, cEarly]).map (fun r => r.Delay_Mins) = [-5, 0] ∧
    (processLoop [cCanc, cEarly]).map (fun r => r.Status) =
      ["Cancelled (Next Arr: 0755)", "On Time"] ∧
    ¬ (0 ≤ (-5 : Int)) := by
  decide

/--
Claim C2 as amended (what the code does): every DelayRecord produced by the
delay computation has delay ≥ 0 — negative differences clamp to 0 in the
non-cancelled branch and the sentinel is 999 — EXCEPT in the
cancelled-attribution branch, which stores the wraparound-corrected
difference to the first non-cancelled successor unclamped, so it can be
negative.
-/
theorem delay_nonneg_except_cancel_attribution :
    ∀ (l : List RawRecord) (out : DelayRecord), out ∈ processLoop l →
      0 ≤ out.Delay_Mins ∨
      ∃ pre row rest nt a, l = pre ++ row :: rest ∧
        row.status_raw = "CANCELLED" ∧
        findNextNonCancelled rest = some nt ∧ nt.act_mins = some a ∧ 0 < a ∧
        out = computeRecord row rest ∧
        out.Delay_Mins = wrapDiff (a - row.sched_mins) := by
  intro l
  induction l with
  | nil => intro out h; simp [processLoop] at h
  | cons r rest ih =>
    intro out h
    rw [processLoop] at h
    rcases List.mem_cons.mp h with he | hmem
    · subst he
      by_cases hc : r.status_raw = "CANCELLED"
      · rcases computeRecord_cancelled_cases r rest hc with
          ⟨nt, a, h1, h2, h3, h4, _⟩ | ⟨h1, _, _⟩
        · right
          exact ⟨[], r, rest, nt, a, rfl, hc, h1, h2, h3, rfl, h4⟩
        · left
          rw [h1]
          decide
      · left
        cases hact : r.act_mins with
        | none => simp [computeRecord, hc, hact]
        | some a =>
          by_cases hle : wrapDiff (a - r.sched_mins) ≤ 0
          · rw [((computeRecord_noncancelled_cases r rest a hc hact).1 hle).1]
          · rw [((computeRecord_noncancelled_cases r rest a hc hact).2 (not_le.mp hle)).1]
            exact le_of_lt (not_le.mp hle)
    · rcases ih out hmem with hn | ⟨pre, row, rest2, nt, a, heq, hcan, h1, h2, h3, h4, h5⟩
      · left; exact hn
      · right
        exact ⟨r :: pre, row, rest2, nt, a, by rw [heq]; rfl, hcan, h1, h2, h3, h4, h5⟩

/-- Witness for the amended C2: a one-record group with an early arrival
produces a clamped, non-negative delay. -/
theorem delay_nonneg_except_cancel_attribution_witness :
    0 ≤ (computeRecord cEarly []).Delay_Mins ∨
    ∃ pre row rest nt a, [cEarly] = pre ++ row :: rest ∧
      row.status_raw = "CANCELLED" ∧
      findNextNonCancelled rest = some nt ∧ nt.act_mins = some a ∧ 0 < a ∧
      computeRecord cEarly [] = computeRecord row rest ∧
      (computeRecord cEarly []).Delay_Mins = wrapDiff (a - row.sched_mins) :=
  delay_nonneg_except_cancel_attribution [cEarly] (computeRecord cEarly []) (by decide)

/--
Claim C7: for each requested date, the aggregator keeps only the
DelayRecords of that date with delay ≥ 15 minutes, sorted descending by delay and
truncated to at most 5; a date with no qualifying record contributes
exactly one placeholder "no delays" row; and the final output lists dates
in the caller-supplied request order with records within a date in
descending delay order.
-/
theorem top_delays_spec (df : List DelayRecord) (d : Nat) :
    (∀ r, r ∈ top_delays_for_date df d → 15 ≤ r.Delay_Mins ∧ r.dt_obj = d ∧ r ∈ df) ∧
    (top_delays_for_date df d).length ≤ 5 ∧
    List.Sorted (fun a b => b.Delay_Mins ≤ a.Delay_Mins) (top_delays_for_date df d) ∧
    ((day_subset (delayed_filter df) d).length ≤ 5 →
      ∀ r, r ∈ df → r.dt_obj = d → 15 ≤ r.Delay_Mins →
        r ∈ top_delays_for_date df d) ∧
    ∀ dates, display_rows dates df =
      dates.flatMap (fun d2 =>
        if (top_delays_for_date df d2).isEmpty then [DisplayRow.noDelays d2]
        else (top_delays_for_date df d2).map (DisplayRow.realRow d2)) := by
  refine ⟨?_, ?_, ?_, ?_, fun dates => rfl⟩
  · intro r hr
    have h1 : r ∈ sort_desc (day_subset (delayed_filter df) d) :=
      (List.take_sublist 5 _).subset hr
    have h2 : r ∈ day_subset (delayed_filter df) d :=
      (List.perm_insertionSort _ _).mem_iff.mp h1
    simp [day_subset, delayed_filter, List.mem_filter] at h2
    exact ⟨h2.2.2, h2.2.1, h2.1⟩
  · exact List.length_take_le 5 _
  · exact List.Pairwise.sublist (List.take_sublist 5 _) (List.sorted_insertionSort _ _)
  · intro hlen r hrdf hrd h15
    have hX : r ∈ day_subset (delayed_filter df) d := by
      simp [day_subset, delayed_filter, List.mem_filter, hrdf, hrd, h15]
    have hs : r ∈ sort_desc (day_subset (delayed_filter df) d) :=
      (List.perm_insertionSort _ _).mem_iff.mpr hX
    have hle : (sort_desc (day_subset (delayed_filter df) d)).length ≤ 5 := by
      rw [sort_desc, (List.perm_insertionSort _ _).length_eq]
      exact hlen
    rw [top_delays_for_date, List.take_of_length_le hle]
    exact hs

/-- Witness for C7 on a concrete table: date 1 has qualifying delays 20 and
16 (and a 5-minute row that is filtered out), date 2 has one qualifying
delay; the selection for date 1 is exactly [20m, 16m] in descending
order. -/
theorem top_delays_spec_witness :
    (15 ≤ dA.Delay_Mins ∧ dA.dt_obj = 1 ∧ dA ∈ dfW) ∧
    dB ∈ top_delays_for_date dfW 1 ∧
    top_delays_for_date dfW 1 = [dA, dB] ∧
    display_rows [1, 2, 3] dfW =
      [DisplayRow.realRow 1 dA, DisplayRow.realRow 1 dB,
       DisplayRow.realRow 2 dD, DisplayRow.noDelays 3] := by
  refine ⟨(top_delays_spec dfW 1).1 dA (by decide),
          (top_delays_spec dfW 1).2.2.2.1 (by decide) dB (by decide) (by decide) (by decide),
          by decide, ?_⟩
  rw [(top_delays_spec dfW 1).2.2.2.2 [1, 2, 3]]
  decide

/-- Helper: deduplication only removes rows (the output is a sublist of the
input). -/
lemma drop_duplicates_go_sublist (seen : List (Nat × String × String × String))
    (l : List DelayRecord) : List.Sublist (drop_duplicates_go seen l) l := by
  induction l generalizing seen with
  | nil => simp [drop_duplicates_go]
  | cons r rest ih =>
    rw [drop_duplicates_go]
    split
    · exact List.Sublist.cons r (ih seen)
    · exact List.Sublist.cons₂ r (ih _)

/-- Helper: the deduplicated output has pairwise-distinct keys, none of
which was already seen. -/
lemma drop_duplicates_go_clean (seen : List (Nat × String × String × String))
    (l : List DelayRecord) :
    ((drop_duplicates_go seen l).map dedupKey).Nodup ∧
    ∀ r, r ∈ drop_duplicates_go seen l → dedupKey r ∉ seen := by
  induction l generalizing seen with
  | nil => simp [drop_duplicates_go]
  | cons r rest ih =>
    rw [drop_duplicates_go]
    split
    · exact ih seen
    · rename_i hnotin
      obtain ⟨ihn, ihs⟩ := ih (dedupKey r :: seen)
      refine ⟨?_, ?_⟩
      · simp only [List.map_cons, List.nodup_cons]
        refine ⟨?_, ihn⟩
        intro hmem
        rcases List.mem_map.mp hmem with ⟨x, hx, hkx⟩
        exact ihs x hx (by rw [hkx]; exact List.mem_cons_self _ _)
      · intro x hx
        rcases List.mem_cons.mp hx with he | hx2
        · subst he; exact hnotin
        · intro hseen
          exact ihs x hx2 (List.mem_cons_of_mem _ hseen)

/-- Helper: a row whose key is unseen and differs from the key of every
earlier row is kept by the deduplication. -/
lemma drop_duplicates_go_keeps (seen : List (Nat × String × String × String))
    (pre : List DelayRecord) :
    ∀ (r : DelayRecord) (post l : List DelayRecord), l = pre ++ r :: post →
      dedupKey r ∉ seen → (∀ p, p ∈ pre → dedupKey p ≠ dedupKey r) →
      r ∈ drop_duplicates_go seen l := by
  induction pre generalizing seen with
  | nil =>
    intro r post l heq hnot hfirst
    subst heq
    simp only [List.nil_append]
    rw [drop_duplicates_go, if_neg hnot]
    exact List.mem_cons_self _ _
  | cons p pre2 ih =>
    intro r post l heq hnot hfirst
    subst heq
    simp only [List.cons_append]
    rw [drop_duplicates_go]
    split
    · exact ih seen r post _ rfl hnot (fun q hq => hfirst q (List.mem_cons_of_mem _ hq))
    · refine List.mem_cons_of_mem _
        (ih (dedupKey p :: seen) r post _ rfl ?_
          (fun q hq => hfirst q (List.mem_cons_of_mem _ hq)))
      intro hmem
      rcases List.mem_cons.mp hmem with he | hseen
      · exact hfirst p (List.mem_cons_self _ _) he.symm
      · exact hnot hseen

/--
Claim C8: the concatenated table is deduplicated on the key
(date, from-station, to-station, scheduled-arrival-text) keeping the first
occurrence: the output is a sublist of the input, no two output rows share
a key, and any row whose key differs from the keys of all earlier rows is kept.
-/
theorem drop_duplicates_spec (l : List DelayRecord) :
    List.Sublist (drop_duplicates l) l ∧
    ((drop_duplicates l).map dedupKey).Nodup ∧
    ∀ pre r post, l = pre ++ r :: post →
      (∀ p, p ∈ pre → dedupKey p ≠ dedupKey r) → r ∈ drop_duplicates l := by
  refine ⟨drop_duplicates_go_sublist [] l, (drop_duplicates_go_clean [] l).1, ?_⟩
  intro pre r post heq hfirst
  exact drop_duplicates_go_keeps [] pre r post l heq (by simp) hfirst

/-- Witness for C8: a key-duplicate pair collapses to the first occurrence,
and a distinct-keyed row is not removed. -/
theorem drop_duplicates_spec_witness :
    dA ∈ drop_duplicates [dA, dAdup, dB] ∧
    dB ∈ drop_duplicates [dA, dAdup, dB] ∧
    ((drop_duplicates [dA, dAdup, dB]).map dedupKey).Nodup ∧
    drop_duplicates [dA, dAdup, dB] = [dA, dB] := by
  refine ⟨(drop_duplicates_spec [dA, dAdup, dB]).2.2 [] dA [dAdup, dB] rfl (by simp),
          (drop_duplicates_spec [dA, dAdup, dB]).2.2 [dA, dAdup] dB [] rfl ?_,
          (drop_duplicates_spec [dA, dAdup, dB]).2.1, by decide⟩
  intro p hp
  fin_cases hp <;> decide
